import Mathlib

/-!
Verification of the real-time voice-assistant core of this repository.

The definitions below are a shallow embedding of the TypeScript source:
- `src/services/gemini.ts` (live session: playback scheduling, transcript
  accumulators, message dispatch, teardown),
- the App component (`src/unnamed/part_000`, the `setTranscripts` updater
  inside `handleStartCall`),
- `src/services/twilio.ts` (`makeTwilioCall`).

Clock times (`AudioContext.currentTime`, buffer durations) are modelled as
exact rationals; JavaScript `Date` timestamps as naturals supplied by the
caller of each update.
-/

namespace Assistant

/-- Speaker role of a transcript entry (source: `TranscriptItem.role` in the
types file; the boolean `isUser` flag of the `onTranscriptUpdate` callback). -/
inductive Role where
  | user
  | assistant
deriving DecidableEq

/-- One entry of the ordered transcript (source: `interface TranscriptItem`
in `src/unnamed/part_000`).  The `Date` timestamp is a `Nat`. -/
structure TranscriptItem where
  role : Role
  text : String
  timestamp : Nat
  isPartial : Bool
deriving DecidableEq

/-- The subset of a `LiveServerMessage` the `onmessage` handler inspects
(`src/services/gemini.ts` lines 94-147).  The audio payload
`serverContent.modelTurn.parts[0].inlineData.data` is modelled by the
duration of its decoded buffer; the two transcription parts by their text;
`turnComplete` and `interrupted` are the two markers. -/
structure ServerMessage where
  audioData : Option ℚ
  outputTranscription : Option String
  inputTranscription : Option String
  turnComplete : Bool
  interrupted : Bool
deriving DecidableEq

/-- The spec's `ServerEvent` dispatch vocabulary for inbound messages. -/
inductive ServerEvent where
  | audioChunk (duration : ℚ)
  | transcriptDelta (role : Role) (text : String)
  | turnComplete
  | interrupted
deriving DecidableEq

/-- Position of each event kind in the handler's fixed block order:
audio first, then transcription, then turn completion, then interruption. -/
def eventRank : ServerEvent → Nat
  | ServerEvent.audioChunk _ => 0
  | ServerEvent.transcriptDelta _ _ => 1
  | ServerEvent.turnComplete => 2
  | ServerEvent.interrupted => 3

/-- Events raised by one pass of the `onmessage` handler, in the order its
blocks run (`gemini.ts` 94-147): audio (96-116), transcription (119-127 -- an
`if` / `else if` pair, so output-transcription takes precedence and at most
one delta is raised per message), turn completion (129), interruption (142). -/
def dispatchEvents (m : ServerMessage) : List ServerEvent :=
  (match m.audioData with
   | some dur => [ServerEvent.audioChunk dur]
   | none => []) ++
  (match m.outputTranscription with
   | some t => [ServerEvent.transcriptDelta Role.assistant t]
   | none =>
     match m.inputTranscription with
     | some t => [ServerEvent.transcriptDelta Role.user t]
     | none => []) ++
  (if m.turnComplete then [ServerEvent.turnComplete] else []) ++
  (if m.interrupted then [ServerEvent.interrupted] else [])

/-- The `setTranscripts` updater of `App.handleStartCall`
(`src/unnamed/part_000` lines 190-209): one call of
`onTranscriptUpdate(text, isUser, isFinal)` folded into the entry list.
A final update replaces a trailing same-role partial entry (or appends a
final entry); a partial update rewrites a trailing same-role partial entry
in place, keeping its role and partial flag (the `{...last}` spread), or
appends a fresh partial entry. -/
def applyUpdate (prev : List TranscriptItem) (now : Nat) (text : String)
    (isUser : Bool) (isFinal : Bool) : List TranscriptItem :=
  let role := if isUser then Role.user else Role.assistant
  match prev.getLast? with
  | some last =>
    if isFinal then
      if last.isPartial ∧ last.role = role then
        prev.dropLast ++ [⟨role, text, now, false⟩]
      else
        prev ++ [⟨role, text, now, false⟩]
    else
      if last.isPartial ∧ last.role = role then
        prev.dropLast ++ [⟨last.role, text, now, last.isPartial⟩]
      else
        prev ++ [⟨role, text, now, true⟩]
  | none =>
    if isFinal then prev ++ [⟨role, text, now, false⟩]
    else prev ++ [⟨role, text, now, true⟩]

/-- Session state touched by the `onmessage` handler: the playback cursor
`nextStartTime` (`gemini.ts` line 14, seeded to the clock at session open on
line 51), the two closure accumulators (lines 61-62), and the App transcript
list that `onTranscriptUpdate` folds into. -/
structure SessionState where
  nextStartTime : ℚ
  currentInput : String
  currentOutput : String
  transcript : List TranscriptItem
deriving DecidableEq

/-- JavaScript `Math.max` of two clock values. -/
def rmax (a b : ℚ) : ℚ := if a ≤ b then b else a

/-- Lines 102 and 114-115 of `gemini.ts`:
`nextStartTime = Math.max(nextStartTime, currentTime)`;
`source.start(nextStartTime)`; `nextStartTime += buffer.duration`.  Returns
`(scheduledStart, nextStartTime after the chunk)`. -/
def scheduleChunk (nst clock dur : ℚ) : ℚ × ℚ :=
  (rmax nst clock, rmax nst clock + dur)

/-- Audio block of `onmessage` (lines 96-116); the audio context is live. -/
def audioStep (clock : ℚ) (m : ServerMessage) (s : SessionState) : SessionState :=
  match m.audioData with
  | some dur => { s with nextStartTime := (scheduleChunk s.nextStartTime clock dur).2 }
  | none => s

/-- Transcription block of `onmessage` (lines 118-127): an `if` / `else if`,
so when both transcriptions are present only the output one is handled. -/
def transcriptionStep (now : Nat) (m : ServerMessage) (s : SessionState) : SessionState :=
  match m.outputTranscription with
  | some t =>
    { s with currentOutput := s.currentOutput ++ t,
             transcript := applyUpdate s.transcript now (s.currentOutput ++ t) false false }
  | none =>
    match m.inputTranscription with
    | some t =>
      { s with currentInput := s.currentInput ++ t,
               transcript := applyUpdate s.transcript now (s.currentInput ++ t) true false }
    | none => s

/-- JavaScript truthiness of `str.trim()`: true exactly when the trimmed
string is non-empty, i.e. when `str` has a non-whitespace character. -/
def trimNonempty (s : String) : Bool := s.data.any fun c => !c.isWhitespace

/-- Turn-completion block of `onmessage` (lines 129-139): each accumulator
that is non-empty after trimming is finalized (input first, then output) and
then cleared; empty accumulators produce nothing. -/
def turnStep (now : Nat) (m : ServerMessage) (s : SessionState) : SessionState :=
  if m.turnComplete then
    let sa :=
      if trimNonempty s.currentInput then
        { s with transcript := applyUpdate s.transcript now s.currentInput true true,
                 currentInput := "" }
      else s
    if trimNonempty sa.currentOutput then
      { sa with transcript := applyUpdate sa.transcript now sa.currentOutput false true,
                currentOutput := "" }
    else sa
  else s

/-- Interruption block of `onmessage` (lines 141-147):
`nextStartTime = audioContext.currentTime; currentOutputTranscription = ''`.
Nothing else is touched and no transcript update is emitted. -/
def interruptStep (clock : ℚ) (m : ServerMessage) (s : SessionState) : SessionState :=
  if m.interrupted then { s with nextStartTime := clock, currentOutput := "" } else s

/-- One invocation of the `onmessage` handler (`gemini.ts` 94-147) combined
with the App transcript callback, running its four blocks in program order.
`now` is the `Date` timestamp the App callback reads; `clock` is
`audioContext.currentTime` during this invocation. -/
def processMessage (s : SessionState) (now : Nat) (clock : ℚ)
    (m : ServerMessage) : SessionState :=
  interruptStep clock m (turnStep now m (transcriptionStep now m (audioStep clock m s)))

/-- Fold `processMessage` over a stream of `(timestamp, clock, message)`. -/
def processMessages (s : SessionState) (ms : List (Nat × ℚ × ServerMessage)) : SessionState :=
  ms.foldl (fun st x => processMessage st x.1 x.2.1 x.2.2) s

/-- An inbound audio chunk for the playback scheduler: the clock reading at
its arrival and the duration of its decoded buffer. -/
structure Chunk where
  clock : ℚ
  duration : ℚ
deriving DecidableEq

/-- Iterated scheduling of a chunk sequence from cursor `nst` (the loop the
audio block of `onmessage` performs across arrivals): entry `i` is
`(scheduledStart of chunk i, nextStartTime after chunk i)`. -/
def schedule : ℚ → List Chunk → List (ℚ × ℚ)
  | _, [] => []
  | nst, c :: cs =>
    scheduleChunk nst c.clock c.duration ::
      schedule (scheduleChunk nst c.clock c.duration).2 cs

/-- State of the session promise the capture path submits through. -/
inductive PromiseState where
  | pending
  | resolved
deriving DecidableEq

/-- The frame-submission path of `processor.onaudioprocess`
(`gemini.ts` 75-89): every captured frame is handed to
`sessionPromise.then((sess) => sess.sendRealtimeInput(...))` with no
transport-state check.  A `then` callback registered while the promise is
pending is queued by the promise and runs at resolution, in registration
order; one registered after resolution runs at once.  Frames are identified
by `Nat` tags; `sent` lists the frames delivered to `sendRealtimeInput`. -/
structure CaptureState where
  promise : PromiseState
  queued : List Nat
  sent : List Nat
deriving DecidableEq

/-- One capture callback: register the frame's send through the promise.
The callback itself is total -- no error path exists in the source. -/
def onAudioFrame (s : CaptureState) (frame : Nat) : CaptureState :=
  match s.promise with
  | PromiseState.resolved => { s with sent := s.sent ++ [frame] }
  | PromiseState.pending => { s with queued := s.queued ++ [frame] }

/-- Resolution of `sessionPromise`: all queued `then` callbacks fire in
order, delivering their frames. -/
def resolveSession (s : CaptureState) : CaptureState :=
  { s with promise := PromiseState.resolved,
           sent := s.sent ++ s.queued,
           queued := [] }

/-- The module-level nullable handles of `gemini.ts` (lines 9-15), as
presence flags: `true` means the handle is non-null. -/
structure ModuleState where
  audioContext : Bool
  inputAudioContext : Bool
  mediaStream : Bool
  processor : Bool
  sourceInput : Bool
  session : Bool
deriving DecidableEq

/-- The observable resource releases `stopLiveSession` can perform. -/
inductive TeardownAction where
  | disconnectProcessor
  | disconnectSource
  | stopTracks
  | closeSession
  | closeAudioContext
  | closeInputContext
deriving DecidableEq

/-- `stopLiveSession` (`gemini.ts` 179-211): each block releases a resource
only when its handle is non-null and then nulls it.  Returns the new handles
and the release actions performed, in program order.  The function throws
nowhere in the source; totality of this definition models that. -/
def stopLiveSession (s : ModuleState) : ModuleState × List TeardownAction :=
  let (s1, a1) :=
    if s.processor ∧ s.inputAudioContext then
      ({ s with processor := false, sourceInput := false },
       TeardownAction.disconnectProcessor ::
         (if s.sourceInput then [TeardownAction.disconnectSource] else []))
    else (s, [])
  let (s2, a2) :=
    if s1.mediaStream then ({ s1 with mediaStream := false }, [TeardownAction.stopTracks])
    else (s1, [])
  let (s3, a3) :=
    if s2.session then ({ s2 with session := false }, [TeardownAction.closeSession])
    else (s2, [])
  let (s4, a4) :=
    if s3.audioContext then ({ s3 with audioContext := false }, [TeardownAction.closeAudioContext])
    else (s3, [])
  let (s5, a5) :=
    if s4.inputAudioContext then
      ({ s4 with inputAudioContext := false }, [TeardownAction.closeInputContext])
    else (s4, [])
  (s5, a1 ++ a2 ++ a3 ++ a4 ++ a5)

/-- Twilio credentials (source: `interface TwilioConfig` in the types file;
only the three fields `makeTwilioCall` validates). -/
structure TwilioConfig where
  accountSid : String
  authToken : String
  myPhoneNumber : String
deriving DecidableEq

/-- The outbound call request `makeTwilioCall` assembles and would POST. -/
structure TwilioRequest where
  endpoint : String
  toNumber : String
  fromNumber : String
  twiml : String
  basicAuthUserPass : String
deriving DecidableEq

/-- `makeTwilioCall` (`src/services/twilio.ts` 13-59) up to the `fetch`:
the credential check throws `"Missing Twilio credentials"` before anything
is built (JavaScript falsiness of a string is emptiness); otherwise the
request is assembled.  `btoa` is modelled by keeping the raw `sid:token`
string; the whitespace of the TwiML template literal is elided. -/
def makeTwilioCall (config : TwilioConfig) (customerNumber : String)
    (userRealPhoneNumber : String) : Except String TwilioRequest :=
  if config.accountSid = "" ∨ config.authToken = "" ∨ config.myPhoneNumber = "" then
    Except.error "Missing Twilio credentials"
  else
    Except.ok
      { endpoint := "https://api.twilio.com/2010-04-01/Accounts/"
          ++ config.accountSid ++ "/Calls.json"
        toNumber := customerNumber
        fromNumber := config.myPhoneNumber
        twiml := "<Response><Say>Please wait while we connect you to the assistant.</Say><Dial>"
          ++ userRealPhoneNumber ++ "</Dial></Response>"
        basicAuthUserPass := config.accountSid ++ ":" ++ config.authToken }

/-- A message carrying only the interrupted marker: the spec's `Interrupted`
event. -/
def interruptOnlyMsg : ServerMessage := ⟨none, none, none, false, true⟩

/-- A message carrying only the turn-complete marker: the spec's
`TurnComplete` event. -/
def turnOnlyMsg : ServerMessage := ⟨none, none, none, true, false⟩

/-- A message carrying only an output-transcription delta:
`TranscriptDelta(assistant, t)`. -/
def assistantDeltaMsg (t : String) : ServerMessage := ⟨none, some t, none, false, false⟩

/-- A message carrying only an input-transcription delta:
`TranscriptDelta(user, t)`. -/
def userDeltaMsg (t : String) : ServerMessage := ⟨none, none, some t, false, false⟩

/-- A message carrying both an output- and an input-transcription delta. -/
def bothMsg : ServerMessage := ⟨none, some "a", some "b", false, false⟩

/-- Mid-turn state of the interruption scenario of the spec: the assistant
has accumulated "I think we should", shown as a trailing non-final entry. -/
def c3State : SessionState :=
  ⟨5, "", "I think we should", [⟨Role.assistant, "I think we should", 0, true⟩]⟩

/-- Scenario state: empty transcript, then `TranscriptDelta(assistant, "Hel")`. -/
def c5s1 : SessionState := processMessage ⟨0, "", "", []⟩ 1 0 (assistantDeltaMsg "Hel")

/-- Scenario state: then `TranscriptDelta(assistant, "lo")`. -/
def c5s2 : SessionState := processMessage c5s1 2 0 (assistantDeltaMsg "lo")

/-- Scenario state: then `TurnComplete`. -/
def c5s3 : SessionState := processMessage c5s2 3 0 turnOnlyMsg

/-- Scenario state: then a fresh `TranscriptDelta(assistant, "Hi")`. -/
def c5s4 : SessionState := processMessage c5s3 4 0 (assistantDeltaMsg "Hi")

/-- Scenario state: empty transcript, `TranscriptDelta(user, "Hi")`, then
`TranscriptDelta(assistant, "Hello")`, no `TurnComplete` between. -/
def c6T : SessionState :=
  processMessage (processMessage ⟨0, "", "", []⟩ 1 0 (userDeltaMsg "Hi")) 2 0
    (assistantDeltaMsg "Hello")

/-- Scenario state: `c6T` followed by a further user delta. -/
def c7T : SessionState := processMessage c6T 3 0 (userDeltaMsg "!")

/-- Scenario state: `c6T` followed by a further assistant delta. -/
def c7A : SessionState := processMessage c6T 3 0 (assistantDeltaMsg " there")

/-- Claim C4: processing an `Interrupted` event clears the assistant's
pending accumulator and resets `nextStartTime` to the current clock time,
leaves the user's pending accumulator unchanged, emits no transcript update
for either role, and modifies no other session state. -/
theorem C4_interrupt_frame (s : SessionState) (now : Nat) (clock : ℚ) :
    processMessage s now clock interruptOnlyMsg =
      { s with nextStartTime := clock, currentOutput := "" } := rfl

/-- Claim C5 (confirmed): from an empty transcript,
`TranscriptDelta(assistant, "Hel")` then `TranscriptDelta(assistant, "lo")`
yields exactly one entry, non-final, with text `"Hello"`; a following
`TurnComplete` marks that same entry final with text unchanged and empties
the assistant accumulator; a subsequent assistant delta starts a brand-new
non-final entry instead of appending to the finalized one. -/
theorem C5_merge_finalize :
    c5s2.transcript = [⟨Role.assistant, "Hello", 2, true⟩] ∧
    c5s3.transcript = [⟨Role.assistant, "Hello", 3, false⟩] ∧
    c5s3.currentOutput = "" ∧
    c5s4.transcript =
      [⟨Role.assistant, "Hello", 3, false⟩, ⟨Role.assistant, "Hi", 4, true⟩] := by
  decide

/-- Claim C9 (confirmed): `stopLiveSession` is idempotent -- a second call
from the already-torn-down state performs no release action, and leaves the
state exactly as after the first call.  The definition is total: no error
path exists. -/
theorem C9_stop_idempotent (s : ModuleState) :
    stopLiveSession (stopLiveSession s).1 = ((stopLiveSession s).1, []) := by
  rcases s with ⟨a, i, m, p, so, se⟩
  cases a <;> cases i <;> cases m <;> cases p <;> cases so <;> cases se <;> rfl

/-- Claim C10 (confirmed): whenever any of the Twilio account SID, auth
token, or Twilio phone number is the empty string, `makeTwilioCall` throws
`"Missing Twilio credentials"`, so no outbound request is ever assembled or
sent with incomplete credentials. -/
theorem C10_missing_credentials (config : TwilioConfig)
    (customerNumber userRealPhoneNumber : String)
    (h : config.accountSid = "" ∨ config.authToken = "" ∨ config.myPhoneNumber = "") :
    makeTwilioCall config customerNumber userRealPhoneNumber
      = Except.error "Missing Twilio credentials" := by
  unfold makeTwilioCall
  rw [if_pos h]

/-- Claim C10 witness: a concrete config with an empty account SID is
rejected before any request is built. -/
theorem C10_witness :
    makeTwilioCall ⟨"", "secretToken", "+15555550100"⟩ "+15555550123" "+15555550199"
      = Except.error "Missing Twilio credentials" :=
  C10_missing_credentials ⟨"", "secretToken", "+15555550100"⟩ "+15555550123"
    "+15555550199" (Or.inl rfl)

/-- Claim C2 counterexample: a message carrying both an output-transcription
delta ("a") and an input-transcription delta ("b") does NOT produce
`TranscriptDelta(user, "b")` -- the `else if` in the handler drops the input
delta whenever an output delta is present, contradicting the claim that both
events are emitted in one dispatch pass. -/
theorem C2_cex : ServerEvent.transcriptDelta Role.user "b" ∉ dispatchEvents bothMsg := by
  decide

/-- Claim C3 counterexample: from a state whose transcript ends with the
non-final assistant entry "I think we should" and whose assistant
accumulator is non-empty, processing `Interrupted` leaves the transcript
completely unchanged -- the trailing non-final assistant entry is NOT
removed, contradicting the claimed retraction. -/
theorem C3_cex :
    (processMessage c3State 1 6 interruptOnlyMsg).transcript
      = [⟨Role.assistant, "I think we should", 0, true⟩] := by
  decide

/-- Claim C6 counterexample: after `TranscriptDelta(user, "Hi")` then
`TranscriptDelta(assistant, "Hello")` the transcript holds TWO non-final
entries, the first of which is not the last entry -- refuting the claimed
invariant that at most one entry is non-final and that it is trailing. -/
theorem C6_cex :
    c6T.transcript = [⟨Role.user, "Hi", 1, true⟩, ⟨Role.assistant, "Hello", 2, true⟩] ∧
    ¬ ((c6T.transcript.countP fun e => e.isPartial) ≤ 1) := by
  decide

/-- Claim C7 counterexample: continuing `c6T` with a further user delta
`"!"` does not update the earlier user entry -- it appends a THIRD entry,
leaving the earlier user entry's text at "Hi", contradicting the claim that
a further delta for either role updates only that role's entry. -/
theorem C7_cex :
    c7T.transcript =
      [⟨Role.user, "Hi", 1, true⟩, ⟨Role.assistant, "Hello", 2, true⟩,
       ⟨Role.user, "Hi!", 3, true⟩] := by
  decide

/-- Claim C7 (corrected): the two deltas yield two distinct non-final
entries, one per role; a further assistant delta updates the trailing
assistant entry in place; but a further user delta appends a new non-final
user entry rather than updating the earlier user entry -- only the trailing
entry is ever rewritten in place. -/
theorem C7_role_switch :
    c6T.transcript = [⟨Role.user, "Hi", 1, true⟩, ⟨Role.assistant, "Hello", 2, true⟩] ∧
    c7A.transcript =
      [⟨Role.user, "Hi", 1, true⟩, ⟨Role.assistant, "Hello there", 3, true⟩] ∧
    c7T.transcript =
      [⟨Role.user, "Hi", 1, true⟩, ⟨Role.assistant, "Hello", 2, true⟩,
       ⟨Role.user, "Hi!", 3, true⟩] := by
  decide

/-- Claim C8 counterexample: a frame captured while the session promise is
still pending (transport not yet `Open`) is NOT discarded: it is queued by
the promise and delivered to `sendRealtimeInput` when the promise resolves,
contradicting "never transmitted, neither immediately nor later". -/
theorem C8_cex :
    (resolveSession (onAudioFrame ⟨PromiseState.pending, [], []⟩ 7)).sent = [7] := by
  decide

/-- Claim C8 (corrected): the capture path performs no transport-state
check and never drops or errors on a frame: a frame produced while the
promise is pending is queued and transmitted at resolution, a frame
produced after resolution is sent immediately, and in every case the frame
is eventually among the frames sent. -/
theorem C8_no_drop (s : CaptureState) (f : Nat) :
    f ∈ (resolveSession (onAudioFrame s f)).sent ∧
    (s.promise = PromiseState.pending →
      (onAudioFrame s f).sent = s.sent ∧ (onAudioFrame s f).queued = s.queued ++ [f]) ∧
    (s.promise = PromiseState.resolved →
      (onAudioFrame s f).sent = s.sent ++ [f]) := by
  rcases s with ⟨p, q, st⟩
  cases p <;> simp [onAudioFrame, resolveSession]

/-- Claim C8 witness: frame 7, captured while the promise is pending, is
queued and then transmitted on resolution. -/
theorem C8_witness :
    7 ∈ (resolveSession (onAudioFrame ⟨PromiseState.pending, [], []⟩ 7)).sent ∧
    (onAudioFrame (⟨PromiseState.pending, [], []⟩ : CaptureState) 7).queued = [] ++ [7] :=
  ⟨(C8_no_drop ⟨PromiseState.pending, [], []⟩ 7).1,
   ((C8_no_drop ⟨PromiseState.pending, [], []⟩ 7).2.1 rfl).2⟩

/-- Claim C3 (corrected): processing `Interrupted` clears the assistant
accumulator, so the turn yields zero finalized assistant entries (a
following `TurnComplete`, with the user accumulator blank, changes nothing)
-- but the trailing non-final assistant entry is NOT retracted: the
transcript sequence is left completely unchanged by the handler. -/
theorem C3_interrupt_keeps_entry (s : SessionState) (now now2 : Nat) (clock clock2 : ℚ)
    (h : trimNonempty s.currentInput = false) :
    (processMessage s now clock interruptOnlyMsg).currentOutput = "" ∧
    (processMessage s now clock interruptOnlyMsg).transcript = s.transcript ∧
    (processMessage (processMessage s now clock interruptOnlyMsg) now2 clock2
        turnOnlyMsg).transcript = s.transcript := by
  refine ⟨rfl, rfl, ?_⟩
  show (turnStep now2 turnOnlyMsg
      { s with nextStartTime := clock, currentOutput := "" }).transcript = s.transcript
  have h0 : trimNonempty ("" : String) = false := rfl
  simp [turnStep, h, h0]

/-- Claim C3 witness: the "I think we should" interruption scenario --
the accumulator empties, the non-final entry survives, and a following
`TurnComplete` finalizes nothing. -/
theorem C3_witness :
    trimNonempty c3State.currentInput = false ∧
    ((processMessage c3State 1 6 interruptOnlyMsg).currentOutput = "" ∧
     (processMessage c3State 1 6 interruptOnlyMsg).transcript = c3State.transcript ∧
     (processMessage (processMessage c3State 1 6 interruptOnlyMsg) 2 7
        turnOnlyMsg).transcript = c3State.transcript) :=
  ⟨rfl, C3_interrupt_keeps_entry c3State 1 2 6 7 rfl⟩

/-- The first scheduled start of a chunk run is at least the cursor the run
started from. -/
theorem schedule_head_le (nst : ℚ) (cs : List Chunk) :
    ∀ p ∈ (schedule nst cs).head?, nst ≤ p.1 := by
  cases cs with
  | nil => intro p hp; simp [schedule] at hp
  | cons c cs =>
    intro p hp
    simp [schedule] at hp
    rw [← hp]
    show nst ≤ rmax nst c.clock
    unfold rmax
    split
    · assumption
    · exact le_refl nst

/-- Consecutive scheduled chunks never overlap: each chunk's start is at
least the cursor (previous start plus previous duration) left behind. -/
theorem schedule_chain (nst : ℚ) (cs : List Chunk) :
    (schedule nst cs).Chain' fun p q => p.2 ≤ q.1 := by
  induction cs generalizing nst with
  | nil => simp [schedule]
  | cons c cs ih =>
    rw [show schedule nst (c :: cs)
        = scheduleChunk nst c.clock c.duration ::
            schedule (scheduleChunk nst c.clock c.duration).2 cs from rfl]
    exact List.chain'_cons'.mpr ⟨schedule_head_le _ cs, ih _⟩

/-- After each chunk the cursor advances to its start plus its duration. -/
theorem schedule_advances (nst : ℚ) (cs : List Chunk) :
    ∀ pc ∈ (schedule nst cs).zip cs, pc.1.2 = pc.1.1 + pc.2.duration := by
  induction cs generalizing nst with
  | nil => intro pc h; simp [schedule] at h
  | cons c cs ih =>
    intro pc h
    rw [show schedule nst (c :: cs)
        = scheduleChunk nst c.clock c.duration ::
            schedule (scheduleChunk nst c.clock c.duration).2 cs from rfl,
      List.zip_cons_cons] at h
    rcases List.mem_cons.mp h with h1 | h1
    · rw [h1]; rfl
    · exact ih _ pc h1

/-- Claim C1 (confirmed): for chunks processed in arrival order from a
cursor seeded at session open, each scheduled start is
`max(nextStartTime, clock)`, hence every start is at least the previous
start plus the previous duration (chain clause together with the advance
clause), the first start is at least the clock at session open (the seed),
and after each chunk the cursor is exactly that chunk's start plus its
buffer duration. -/
theorem C1_monotone_scheduling (nst0 : ℚ) (cs : List Chunk) :
    ((schedule nst0 cs).Chain' fun p q => p.2 ≤ q.1) ∧
    (∀ p ∈ (schedule nst0 cs).head?, nst0 ≤ p.1) ∧
    (∀ pc ∈ (schedule nst0 cs).zip cs, pc.1.2 = pc.1.1 + pc.2.duration) :=
  ⟨schedule_chain nst0 cs, schedule_head_le nst0 cs, schedule_advances nst0 cs⟩

/-- Claim C1 witness: opening at clock 10, a 2-second chunk arriving at
clock 10 is scheduled at start 10 (not before the opening clock) and leaves
the cursor at 12 = start + duration. -/
theorem C1_witness :
    (scheduleChunk 10 10 2).1 = 10 ∧ (scheduleChunk 10 10 2).2 = 12 ∧
    ((10 : ℚ) ≤ (scheduleChunk 10 10 2).1) ∧
    ((scheduleChunk 10 10 2).2 = (scheduleChunk 10 10 2).1 + 2) :=
  ⟨by norm_num [scheduleChunk, rmax], by norm_num [scheduleChunk, rmax],
   (C1_monotone_scheduling 10 [⟨10, 2⟩]).2.1 (scheduleChunk 10 10 2) rfl,
   (C1_monotone_scheduling 10 [⟨10, 2⟩]).2.2 (scheduleChunk 10 10 2, ⟨10, 2⟩)
     (List.Mem.head _)⟩

/-- Every branch of `applyUpdate` either appends one entry or rewrites the
last entry (`dropLast ++ [x]`), never touching anything earlier. -/
theorem applyUpdate_shape (prev : List TranscriptItem) (now : Nat) (text : String)
    (iU iF : Bool) :
    (∃ x, applyUpdate prev now text iU iF = prev ++ [x]) ∨
    (prev ≠ [] ∧ ∃ x, applyUpdate prev now text iU iF = prev.dropLast ++ [x]) := by
  simp only [applyUpdate]
  split
  · rename_i last heq
    have hne : prev ≠ [] := by rintro rfl; simp at heq
    split <;> split <;> split
    all_goals first
      | exact Or.inr ⟨hne, _, rfl⟩
      | exact Or.inl ⟨_, rfl⟩
  · split
    all_goals exact Or.inl ⟨_, rfl⟩

/-- A transition that appends or rewrites only the last entry keeps every
earlier entry (the first `length - 1`) unchanged and never shrinks. -/
theorem transcriptStepBound {t0 t1 : List TranscriptItem}
    (h : (∃ x, t1 = t0 ++ [x]) ∨ (t0 ≠ [] ∧ ∃ x, t1 = t0.dropLast ++ [x])) :
    t0.length ≤ t1.length ∧ t1.take (t0.length - 1) = t0.take (t0.length - 1) := by
  rcases h with ⟨x, rfl⟩ | ⟨hne, x, rfl⟩
  · refine ⟨by simp, ?_⟩
    exact List.take_append_of_le_length (Nat.sub_le _ _)
  · have hlen : t0.dropLast.length = t0.length - 1 := List.length_dropLast t0
    have hpos : 1 ≤ t0.length := List.length_pos.mpr hne
    refine ⟨by simp [hlen]; omega, ?_⟩
    rw [List.take_append_of_le_length (le_of_eq hlen.symm)]
    conv_lhs => rw [← hlen, List.take_length]
    rw [List.dropLast_eq_take]

/-- Transitivity of the earlier-entries-preserved relation. -/
theorem transcriptBoundTrans {t0 t1 t2 : List TranscriptItem}
    (h01 : t0.length ≤ t1.length ∧ t1.take (t0.length - 1) = t0.take (t0.length - 1))
    (h12 : t1.length ≤ t2.length ∧ t2.take (t1.length - 1) = t1.take (t1.length - 1)) :
    t0.length ≤ t2.length ∧ t2.take (t0.length - 1) = t0.take (t0.length - 1) := by
  refine ⟨le_trans h01.1 h12.1, ?_⟩
  have hm : t0.length - 1 ≤ t1.length - 1 := Nat.sub_le_sub_right h01.1 1
  calc t2.take (t0.length - 1)
      = (t2.take (t1.length - 1)).take (t0.length - 1) := by
        rw [List.take_take, Nat.min_eq_left hm]
    _ = (t1.take (t1.length - 1)).take (t0.length - 1) := by rw [h12.2]
    _ = t1.take (t0.length - 1) := by rw [List.take_take, Nat.min_eq_left hm]
    _ = t0.take (t0.length - 1) := h01.2

/-- The audio block never touches the transcript. -/
theorem audioStep_transcript (clock : ℚ) (m : ServerMessage) (s : SessionState) :
    (audioStep clock m s).transcript = s.transcript := by
  unfold audioStep
  cases m.audioData <;> rfl

/-- The interruption block never touches the transcript. -/
theorem interruptStep_transcript (clock : ℚ) (m : ServerMessage) (s : SessionState) :
    (interruptStep clock m s).transcript = s.transcript := by
  unfold interruptStep
  split <;> rfl

/-- The transcription block preserves all earlier entries. -/
theorem transcriptionStep_bound (now : Nat) (m : ServerMessage) (s : SessionState) :
    s.transcript.length ≤ (transcriptionStep now m s).transcript.length ∧
    (transcriptionStep now m s).transcript.take (s.transcript.length - 1)
      = s.transcript.take (s.transcript.length - 1) := by
  unfold transcriptionStep
  cases m.outputTranscription with
  | some t => exact transcriptStepBound (applyUpdate_shape _ _ _ _ _)
  | none =>
    cases m.inputTranscription with
    | some t => exact transcriptStepBound (applyUpdate_shape _ _ _ _ _)
    | none => exact ⟨le_refl _, rfl⟩

/-- The turn-completion block preserves all earlier entries. -/
theorem turnStep_bound (now : Nat) (m : ServerMessage) (s : SessionState) :
    s.transcript.length ≤ (turnStep now m s).transcript.length ∧
    (turnStep now m s).transcript.take (s.transcript.length - 1)
      = s.transcript.take (s.transcript.length - 1) := by
  unfold turnStep
  by_cases ht : m.turnComplete = true
  · simp only [ht, if_true]
    by_cases h1 : trimNonempty s.currentInput = true
    · simp only [h1, if_true]
      by_cases h2 : trimNonempty s.currentOutput = true
      · simp only [h2, if_true]
        exact transcriptBoundTrans (transcriptStepBound (applyUpdate_shape _ _ _ _ _))
          (transcriptStepBound (applyUpdate_shape _ _ _ _ _))
      · simp only [h2]
        split
        · exact transcriptBoundTrans (transcriptStepBound (applyUpdate_shape _ _ _ _ _))
            (transcriptStepBound (applyUpdate_shape _ _ _ _ _))
        · exact transcriptStepBound (applyUpdate_shape _ _ _ _ _)
    · simp only [h1]
      split
      · split
        · exact transcriptBoundTrans (transcriptStepBound (applyUpdate_shape _ _ _ _ _))
            (transcriptStepBound (applyUpdate_shape _ _ _ _ _))
        · exact transcriptStepBound (applyUpdate_shape _ _ _ _ _)
      · split
        · exact transcriptStepBound (applyUpdate_shape _ _ _ _ _)
        · exact ⟨le_refl _, rfl⟩
  · simp only [ht]
    split
    · split
      · split
        · exact transcriptBoundTrans (transcriptStepBound (applyUpdate_shape _ _ _ _ _))
            (transcriptStepBound (applyUpdate_shape _ _ _ _ _))
        · exact transcriptStepBound (applyUpdate_shape _ _ _ _ _)
      · split
        · exact transcriptStepBound (applyUpdate_shape _ _ _ _ _)
        · exact ⟨le_refl _, rfl⟩
    · exact ⟨le_refl _, rfl⟩

/-- One whole `onmessage` pass preserves all earlier entries. -/
theorem processMessage_bound (s : SessionState) (now : Nat) (clock : ℚ)
    (m : ServerMessage) :
    s.transcript.length ≤ (processMessage s now clock m).transcript.length ∧
    (processMessage s now clock m).transcript.take (s.transcript.length - 1)
      = s.transcript.take (s.transcript.length - 1) := by
  unfold processMessage
  rw [interruptStep_transcript]
  have h0 : (audioStep clock m s).transcript = s.transcript := audioStep_transcript clock m s
  have h1 := transcriptionStep_bound now m (audioStep clock m s)
  have h2 := turnStep_bound now m (transcriptionStep now m (audioStep clock m s))
  rw [h0] at h1
  exact transcriptBoundTrans h1 h2

/-- Claim C6 (corrected): after any sequence of events the transcript can
hold more than one non-final entry (see the counterexample), but the
mutation discipline of the claim does hold for everything but the trailing
entry: across any further event stream, the first `length - 1` entries of
the starting transcript are preserved verbatim (role, text, everything),
and the transcript never shrinks -- only the last entry is ever rewritten. -/
theorem C6_earlier_entries_immutable (s : SessionState)
    (ms : List (Nat × ℚ × ServerMessage)) :
    s.transcript.length ≤ (processMessages s ms).transcript.length ∧
    (processMessages s ms).transcript.take (s.transcript.length - 1)
      = s.transcript.take (s.transcript.length - 1) := by
  induction ms generalizing s with
  | nil => exact ⟨le_refl _, rfl⟩
  | cons x ms ih =>
    have hstep : processMessages s (x :: ms)
        = processMessages (processMessage s x.1 x.2.1 x.2.2) ms := rfl
    rw [hstep]
    exact transcriptBoundTrans (processMessage_bound s x.1 x.2.1 x.2.2)
      (ih (processMessage s x.1 x.2.1 x.2.2))

/-- Claim C2 (corrected): in one dispatch pass the handler emits an event
for the audio payload, the turn-complete marker and the interrupted marker
whenever present, in the fixed order AudioChunk, TranscriptDelta,
TurnComplete, Interrupted (ranks are non-decreasing along the emitted list)
-- but at most ONE TranscriptDelta is emitted per message: the assistant
delta whenever output-transcription is present, the user delta only when
output-transcription is absent; a message carrying both transcriptions
loses its user delta. -/
theorem C2_dispatch_order (m : ServerMessage) :
    (∀ d, m.audioData = some d → ServerEvent.audioChunk d ∈ dispatchEvents m) ∧
    (∀ t, m.outputTranscription = some t →
      ServerEvent.transcriptDelta Role.assistant t ∈ dispatchEvents m) ∧
    (∀ t, m.outputTranscription = none → m.inputTranscription = some t →
      ServerEvent.transcriptDelta Role.user t ∈ dispatchEvents m) ∧
    (∀ t u, m.outputTranscription = some t →
      ServerEvent.transcriptDelta Role.user u ∉ dispatchEvents m) ∧
    (m.turnComplete = true → ServerEvent.turnComplete ∈ dispatchEvents m) ∧
    (m.interrupted = true → ServerEvent.interrupted ∈ dispatchEvents m) ∧
    ((dispatchEvents m).map eventRank).Chain' (· ≤ ·) := by
  rcases m with ⟨ad, ot, it, tc, ir⟩
  cases ad <;> cases ot <;> cases it <;> cases tc <;> cases ir <;>
    simp [dispatchEvents, eventRank]

/-- Claim C2 witness: on the concrete message carrying both transcription
deltas, the assistant delta is emitted; on a turn-complete-only message the
TurnComplete event is emitted. -/
theorem C2_witness :
    ServerEvent.transcriptDelta Role.assistant "a" ∈ dispatchEvents bothMsg ∧
    ServerEvent.turnComplete ∈ dispatchEvents turnOnlyMsg :=
  ⟨(C2_dispatch_order bothMsg).2.1 "a" rfl,
   (C2_dispatch_order turnOnlyMsg).2.2.2.2.1 rfl⟩

end Assistant
